import Mathlib

/-!
Verification development for the lox-rust tree-walking interpreter
(workspace crates `loxrustlib`, `loxrust`).

Shallow embedding conventions:
* `f64` is modelled as `Rat`; no claim below depends on IEEE rounding,
  NaN, or host float formatting.
* Rust `HashMap<String, V>` is modelled as an association list whose
  `insert` overwrites; only lookup behaviour is observable.
* `Rc<RefCell<Environment>>` sharing is modelled by a store (arena) of
  environments addressed by `Nat` references, so aliasing between the
  interpreter chain and captured closure chains is preserved.
* A Rust panic (e.g. `unwrap` on a failed parse) is modelled as a
  distinguished result constructor, never as an ordinary error value.
* Interpreter recursion is fuel-indexed; `none` means fuel ran out.
  All concrete runs below use ample fuel.
-/

namespace LoxRust

/-- Characters written via code points to keep source braces/quotes out of literals. -/
def lbraceChar : Char := Char.ofNat 123

def rbraceChar : Char := Char.ofNat 125

def quoteChar : Char := Char.ofNat 34

/-- From src/loxrustlib/src/token.rs, `enum TokenKind`. Rust variant names that are
Lean keywords (`fun`, `if`, ...) are prefixed with `kw`. -/
inductive TokenKind where
  | leftParen
  | rightParen
  | leftBrace
  | rightBrace
  | comma
  | dot
  | minus
  | plus
  | semicolon
  | slash
  | star
  | bang
  | bangEqual
  | equal
  | equalEqual
  | greater
  | greaterEqual
  | less
  | lessEqual
  | identifier (name : String)
  | string (value : String)
  | number (value : Rat)
  | boolean (value : Bool)
  | kwAnd
  | kwClass
  | kwElse
  | kwFun
  | kwFor
  | kwIf
  | kwNil
  | kwOr
  | kwReturn
  | kwSuper
  | kwThis
  | kwVar
  | kwWhile
  | kwPrint
  | eof
deriving DecidableEq

/-- From src/loxrustlib/src/token.rs, `struct Token`. -/
structure Token where
  kind : TokenKind
  lexeme : String
  line : Nat
deriving DecidableEq

/-- From src/loxrustlib/src/err.rs, `struct LoxError`. The `internal` chaining
field is omitted: none of the embedded code paths construct it
(`with_internal` is unused by the scanner, parser and interpreter). -/
structure LoxError where
  line : Nat
  message : String
deriving DecidableEq

def LoxError.withMessage (m : String) : LoxError := ⟨0, m⟩

def LoxError.withLine (m : String) (l : Nat) : LoxError := ⟨l, m⟩

def LoxError.withMessageLine (m : String) (l : Nat) : LoxError := ⟨l, m⟩

namespace Scanner

/-- Scanner::is_digit (src/loxrustlib/src/scan.rs). -/
def isDigitChar (c : Char) : Bool := c.isDigit

/-- Scanner::is_alphabetical. Rust uses Unicode `is_alphabetic`; modelled
ASCII-only, which agrees on every input any claim below touches. -/
def isAlphabeticalChar (c : Char) : Bool := c.isAlpha || c = '_'

/-- Scanner::is_alphanumeric. -/
def isAlphanumericChar (c : Char) : Bool := isAlphabeticalChar c || isDigitChar c

/-- Digit-string to natural number, for the numeric-literal value. -/
def natOfDigits (cs : List Char) : Nat := cs.foldl (fun a c => a * 10 + (c.toNat - 48)) 0

/-- Exact rational value of a digits-and-single-dot lexeme. -/
def ratOfLexeme (cs : List Char) : Rat :=
  let ip := cs.takeWhile (fun c => c ≠ '.')
  let fp := (cs.dropWhile (fun c => c ≠ '.')).drop 1
  (natOfDigits ip : Rat) + (natOfDigits fp : Rat) / ((10 : Rat) ^ fp.length)

/-- Modelled from the host library: `lexeme.parse::<f64>()` in
Scanner::create_number_token. On the lexemes this scanner produces (a digit
followed by digits and dots), Rust `f64::from_str` succeeds exactly when the
lexeme contains at most one dot ("1", "1.", "1.5" parse; "1.2.3" does not);
the value is modelled as the exact rational. -/
def parseF64 (cs : List Char) : Option Rat :=
  if cs.countP (fun c => c = '.') ≤ 1 then some (ratOfLexeme cs) else none

/-- Scanner::create_number_token. `none` models the `unwrap` panic when
`f64::from_str` rejects the accumulated lexeme. -/
def createNumberToken (startingDigit : Char) (cs : List Char) (line : Nat) :
    Option (Token × List Char) :=
  let more := cs.takeWhile (fun c => isDigitChar c || c = '.')
  let rest := cs.dropWhile (fun c => isDigitChar c || c = '.')
  let lexChars := startingDigit :: more
  match parseF64 lexChars with
  | some q => some (⟨TokenKind.number q, String.mk lexChars, line⟩, rest)
  | none => none

/-- Scanner::match_keyword. -/
def matchKeyword (ident : String) : Option TokenKind :=
  if ident = "and" then some .kwAnd
  else if ident = "class" then some .kwClass
  else if ident = "else" then some .kwElse
  else if ident = "false" then some (.boolean false)
  else if ident = "for" then some .kwFor
  else if ident = "fun" then some .kwFun
  else if ident = "if" then some .kwIf
  else if ident = "nil" then some .kwNil
  else if ident = "or" then some .kwOr
  else if ident = "print" then some .kwPrint
  else if ident = "super" then some .kwSuper
  else if ident = "this" then some .kwThis
  else if ident = "true" then some (.boolean true)
  else if ident = "var" then some .kwVar
  else if ident = "while" then some .kwWhile
  else if ident = "return" then some .kwReturn
  else none

/-- Scanner::create_identifier_token. -/
def createIdentifierToken (alphaChar : Char) (cs : List Char) (line : Nat) :
    Token × List Char :=
  let more := cs.takeWhile isAlphanumericChar
  let rest := cs.dropWhile isAlphanumericChar
  let ident := String.mk (alphaChar :: more)
  match matchKeyword ident with
  | some k => (⟨k, ident, line⟩, rest)
  | none => (⟨TokenKind.identifier ident, ident, line⟩, rest)

/-- Scanner::create_string_token; the loop over `reader.next()`. The buffer
accumulates forward; on a backslash not followed by a quote the backslash is
dropped (as in the source). Returns the token (or the unterminated-string
error) together with the remaining characters and the updated line counter. -/
def createStringToken : List Char → Nat → List Char →
    Except LoxError Token × List Char × Nat
  | [], line, _ => (.error (LoxError.withLine "Unterminated string" line), [], line)
  | c :: c2 :: rest2, line, buf =>
    if c = quoteChar then
      let lex := String.mk buf
      (.ok ⟨TokenKind.string lex, lex, line⟩, c2 :: rest2, line)
    else if c = '\\' then
      if c2 = quoteChar then createStringToken rest2 line (buf ++ [quoteChar])
      else createStringToken (c2 :: rest2) line buf
    else if c = '\n' then createStringToken (c2 :: rest2) (line + 1) (buf ++ [c])
    else createStringToken (c2 :: rest2) line (buf ++ [c])
  | [c], line, buf =>
    -- last character: each non-quote arm loops once more into the None arm
    if c = quoteChar then
      let lex := String.mk buf
      (.ok ⟨TokenKind.string lex, lex, line⟩, [], line)
    else if c = '\n' then (.error (LoxError.withLine "Unterminated string" (line + 1)), [], line + 1)
    else (.error (LoxError.withLine "Unterminated string" line), [], line)

/-- In the line-comment branch, `self.reader.find(|c| c == newline)`: consume
up to and including the first newline; `none` when the input ends first.
Note the scanner does NOT touch its line counter here. -/
def dropThroughNewline (cs : List Char) : Option (List Char) :=
  match cs.dropWhile (fun c => c ≠ '\n') with
  | [] => none
  | _ :: rest => some rest

/-- One result of a pull on the scanner. `panicked` models a Rust panic
(the `unwrap` in create_number_token); `out` is fuel exhaustion, which
cannot happen when fuel exceeds the input length. -/
inductive ScanStep where
  | panicked
  | out
  | tok (res : Except LoxError Token) (rest : List Char) (line : Nat)

/-- The dispatch on the popped character in Scanner::match_next_token: one
constructor per arm shape of the Rust `match`. -/
inductive HeadKind where
  | simple (kind : TokenKind) (lexeme : String)
  | twoChar (second : Char) (twoKind : TokenKind) (twoLex : String)
      (oneKind : TokenKind) (oneLex : String)
  | slashK
  | whitespace
  | newline
  | quoteK
  | digit
  | alpha
  | unknown
deriving DecidableEq

/-- Classify a character exactly as the arm order of the Rust `match c`
in Scanner::match_next_token does. -/
def headKind (c : Char) : HeadKind :=
  if c = '(' then .simple .leftParen "("
  else if c = ')' then .simple .rightParen ")"
  else if c = lbraceChar then .simple .leftBrace "\x7b"
  else if c = rbraceChar then .simple .rightBrace "\x7d"
  else if c = ',' then .simple .comma ","
  else if c = '.' then .simple .dot "."
  else if c = '-' then .simple .minus "-"
  else if c = '+' then .simple .plus "+"
  else if c = ';' then .simple .semicolon ";"
  else if c = '*' then .simple .star "*"
  else if c = '!' then .twoChar '=' .bangEqual "!=" .bang "!"
  else if c = '=' then .twoChar '=' .equalEqual "==" .equal "="
  else if c = '<' then .twoChar '=' .lessEqual "<=" .less "<"
  else if c = '>' then .twoChar '=' .greaterEqual ">=" .greater ">"
  else if c = '/' then .slashK
  else if c = ' ' then .whitespace
  else if c = '\r' then .whitespace
  else if c = '\t' then .whitespace
  else if c = '\n' then .newline
  else if c = quoteChar then .quoteK
  else if isDigitChar c then .digit
  else if isAlphabeticalChar c then .alpha
  else .unknown

/-- Scanner::match_next_token (src/loxrustlib/src/scan.rs lines 146-224):
the loop body, one arm per character class, skipping whitespace, newlines
(incrementing the line counter) and line comments (not incrementing it).
Two-character operators consume the peeked `=` when present. -/
def scanGo : Nat → List Char → Nat → ScanStep
  | 0, _, _ => .out
  | Nat.succ _, [], line => .tok (.ok ⟨TokenKind.eof, "eof", line⟩) [] line
  | Nat.succ f, c :: rest, line =>
    match headKind c with
    | .simple kind lex => .tok (.ok ⟨kind, lex, line⟩) rest line
    | .twoChar second twoKind twoLex oneKind oneLex =>
      if rest.head? = some second then .tok (.ok ⟨twoKind, twoLex, line⟩) rest.tail line
      else .tok (.ok ⟨oneKind, oneLex, line⟩) rest line
    | .slashK =>
      if rest.head? = some '/' then
        match dropThroughNewline rest with
        | some r2 => scanGo f r2 line
        | none => .tok (.ok ⟨TokenKind.eof, "eof", line⟩) [] line
      else .tok (.ok ⟨TokenKind.slash, "/", line⟩) rest line
    | .whitespace => scanGo f rest line
    | .newline => scanGo f rest (line + 1)
    | .quoteK =>
      match createStringToken rest line [] with
      | (res, r2, line2) => .tok res r2 line2
    | .digit =>
      match createNumberToken c rest line with
      | some (t, r2) => .tok (.ok t) r2 line
      | none => .panicked
    | .alpha =>
      match createIdentifierToken c rest line with
      | (t, r2) => .tok (.ok t) r2 line
    | .unknown => .tok (.error (LoxError.withMessageLine "Unknown character" line)) rest line

/-- One pull on the scanner (`Scanner::pop` / `Iterator::next`): input length
plus one is always enough fuel, as every loop iteration consumes a character. -/
def nextToken (cs : List Char) (line : Nat) : ScanStep :=
  scanGo (cs.length + 1) cs line

/-- The finite token stream: pull until the Eof token (the Rust iterator keeps
yielding Eof forever; consumers stop at the first one). A panic ends the
stream. -/
def scanTokens : Nat → List Char → Nat → List (Except LoxError Token)
  | 0, _, _ => []
  | Nat.succ f, cs, line =>
    match nextToken cs line with
    | .panicked => []
    | .out => []
    | .tok res rest line2 =>
      match res with
      | .ok t => if t.kind = TokenKind.eof then [.ok t] else .ok t :: scanTokens f rest line2
      | .error e => .error e :: scanTokens f rest line2

/-- The `line` fields of a fully scanned input, starting at line 1. -/
def tokenLines (cs : List Char) : List Nat :=
  (scanTokens (cs.length + 2) cs 1).map (fun r =>
    match r with
    | .ok t => t.line
    | .error e => e.line)

end Scanner

/-- From the expression module of the interpreter crate. The enum itself is
not among the provided sources (the shipped expr.rs is an older visitor-based
draft), but its shape is fully determined by the constructors and patterns
used in src/loxrustlib/src/interpreter.rs and src/loxrustlib/src/parser.rs,
and by spec section 3. `UnaryOperator` from `op ∈ Minus, Not`. -/
inductive UnaryOperator where
  | minus
  | not
deriving DecidableEq

/-- Binary operators, named as in Interpreter::eval_binary_expression. -/
inductive BinaryOperator where
  | plus
  | minus
  | multiplication
  | division
  | equal
  | notEqual
  | lessThan
  | lessThanOrEqual
  | greaterThan
  | greaterThanOrEqual
deriving DecidableEq

/-- Logical operators (short-circuiting). -/
inductive LogicalOperator where
  | and
  | or
deriving DecidableEq

/-- The `Expression` enum as matched by Interpreter::evaluate
(src/loxrustlib/src/interpreter.rs lines 162-209): literals double as runtime
values. The u16 expression ids are modelled as `Nat`. -/
inductive Expression where
  | literalNumber (n : Rat)
  | literalString (s : String)
  | literalBoolean (b : Bool)
  | nil
  | identifier (id : Nat) (token : Token)
  | assignment (id : Nat) (identifierTok : Token) (expression : Expression)
  | unary (operator : UnaryOperator) (right : Expression)
  | binary (left : Expression) (operator : BinaryOperator) (right : Expression)
  | logical (left : Expression) (operator : LogicalOperator) (right : Expression)
  | grouping (expression : Expression)
  | comma (expressions : List Expression)
  | call (callee : Expression) (closingParenthesis : Token) (arguments : List Expression)

/-- From src/loxrustlib/src/stmt.rs, `enum Statement`. -/
inductive Statement where
  | expressionStatement (expression : Expression)
  | printStatement (printable : Expression)
  | variableDeclaration (identifierTok : Token) (initializer : Option Expression)
  | blockStatement (statements : List Statement)
  | ifStatement (condition : Expression) (trueBranch : Statement) (elseBranch : Option Statement)
  | whileStatement (condition : Expression) (body : Statement)
  | funDeclaration (name : Token) (parameters : List Token) (body : List Statement)
  | returnStatement (keyword : Token) (value : Expression)

/-- Environment references: indices into the interpreter's environment store
(modelling the `Rc<RefCell<Environment>>` handles, whose sharing is
observable through closures). -/
abbrev EnvRef := Nat

/-- The two callable variants behind `Rc<dyn Callable>`
(src/loxrustlib/src/funcs): the native clock and LoxDefinedFunction, which
holds parameter tokens, body statements, and the captured environment chain
(`parent_env: LinkedList<Rc<RefCell<Environment>>>`). -/
inductive Callable where
  | clock
  | loxDefinedFunction (parameters : List Token) (body : List Statement) (parentEnv : List EnvRef)

/-- Association-list lookup, modelling `HashMap::get`. -/
def listGet (l : List (String × α)) (k : String) : Option α :=
  (l.find? (fun p => p.1 = k)).map (·.2)

/-- Association-list insert-overwrite, modelling `HashMap::insert`. -/
def listInsert (l : List (String × α)) (k : String) (v : α) : List (String × α) :=
  (k, v) :: l.filter (fun p => p.1 ≠ k)

/-- The flat `Environment` the interpreter builds (`Environment::new()` with no
parent; the chain lives in the interpreter's LinkedList). Variables map to an
optional value: a declaration without initializer stores `none`. -/
structure Environment where
  vars : List (String × Option Expression)  -- source field name: variables
  callables : List (String × Callable)

/-- Environment::get with no parent: a declared-but-uninitialized name and an
undeclared name both come back `none` (the nested options collapse, as in the
source's `Some(v) => v.clone()`). -/
def Environment.get (e : Environment) (name : String) : Option Expression :=
  match listGet e.vars name with
  | some v => v
  | none => none

/-- `has_declared_variable`, as used by Interpreter::assign_variable: the name
has an entry in this frame (initialized or not). -/
def Environment.hasDeclaredVariable (e : Environment) (name : String) : Bool :=
  (listGet e.vars name).isSome

/-- Environment::define. -/
def Environment.define (e : Environment) (name : String) (v : Option Expression) : Environment :=
  { e with vars := listInsert e.vars name v }

/-- Environment::assign on a frame that already holds the name (the only way
the interpreter reaches it, guarded by `has_declared_variable`). -/
def Environment.assignLocal (e : Environment) (name : String) (v : Expression) : Environment :=
  { e with vars := listInsert e.vars name (some v) }

/-- Environment::get_callable with no parent. -/
def Environment.getCallable (e : Environment) (name : String) : Option Callable :=
  listGet e.callables name

/-- Environment::define_callable. -/
def Environment.defineCallable (e : Environment) (name : String) (c : Callable) : Environment :=
  { e with callables := listInsert e.callables name c }

/-- From src/loxrustlib/src/outcome.rs: `BreakReason`. -/
inductive BreakReason where
  | errored (e : LoxError)
  | returned (v : Expression)

/-- `Outcome<T> = Result<T, BreakReason>`. -/
abbrev Outcome (α : Type) := Except BreakReason α

/-- The interpreter state (struct Interpreter): the environment chain as a
list of store references with the *front at the head* (`push_front` on block
entry, `current_environment = front`, `global_environment = back`), the
resolver side table `locals`, plus the store arena and the stdout trace of
`print` statements (diagnostic dumps are not part of the trace). -/
structure InterpState where
  store : List Environment
  environments : List EnvRef
  locals : List (Nat × Nat)
  output : List String

/-- Interpreter::new: one global environment holding the `clock` builtin. -/
def initState : InterpState :=
  { store := [⟨[], [("clock", Callable.clock)]⟩], environments := [0], locals := [], output := [] }

/-- Read a store slot (an `Rc` deref; out-of-range is unreachable). -/
def storeGet (st : InterpState) (r : EnvRef) : Environment :=
  st.store.getD r ⟨[], []⟩

/-- Write through a store reference (a `RefCell` borrow_mut). -/
def storeSet (st : InterpState) (r : EnvRef) (e : Environment) : InterpState :=
  { st with store := st.store.set r e }

/-- `self.locals.get(id).unwrap_or(&0)`. -/
def lookupLocal (st : InterpState) (id : Nat) : Nat :=
  ((st.locals.find? (fun p => p.1 = id)).map (·.2)).getD 0

/-- Interpreter::get_variable (src/loxrustlib/src/interpreter.rs lines
636-645): `for env in self.environments.iter().rev()`. On the LinkedList the
front is the innermost frame, so `.rev()` walks the chain from the GLOBAL
end towards the current frame; the first hit wins. -/
def getVariable (st : InterpState) (ident : String) : Option Expression :=
  st.environments.reverse.findSome? (fun r => (storeGet st r).get ident)

/-- Interpreter::get_callable (lines 611-620), same global-first `.rev()` walk. -/
def getCallable (st : InterpState) (ident : String) : Option Callable :=
  st.environments.reverse.findSome? (fun r => (storeGet st r).getCallable ident)

/-- Interpreter::get_variable_at: `.iter().rev().skip(depth)`. -/
def getVariableAt (st : InterpState) (ident : String) (depth : Nat) : Option Expression :=
  (st.environments.reverse.drop depth).findSome? (fun r => (storeGet st r).get ident)

/-- Interpreter::get_callable_at. -/
def getCallableAt (st : InterpState) (ident : String) (depth : Nat) : Option Callable :=
  (st.environments.reverse.drop depth).findSome? (fun r => (storeGet st r).getCallable ident)

/-- Interpreter::assign_variable (lines 622-634): walk `.iter_mut().rev()`
(global end first), write into the first frame that has the name declared,
then break; when no frame has it, fall through and return Ok, creating
nothing and raising nothing. -/
def assignVariable (st : InterpState) (ident : String) (v : Expression) : InterpState :=
  match st.environments.reverse.find? (fun r => (storeGet st r).hasDeclaredVariable ident) with
  | some r => storeSet st r ((storeGet st r).assignLocal ident v)
  | none => st

/-- Interpreter::assign_variable_at (lines 658-669): like assign_variable but
skipping `depth` frames from the global end, and with no break, so every
matching frame past the skip is written. -/
def assignVariableAt (st : InterpState) (ident : String) (v : Expression) (depth : Nat) :
    InterpState :=
  (st.environments.reverse.drop depth).foldl
    (fun acc r =>
      if (storeGet acc r).hasDeclaredVariable ident then
        storeSet acc r ((storeGet acc r).assignLocal ident v)
      else acc)
    st

/-- Interpreter::is_truthy (lines 575-589): Nil is false, the boolean
literals are themselves, everything else is true. -/
def isTruthy (e : Expression) : Bool :=
  match e with
  | .nil => false
  | .literalBoolean b => b
  | _ => true

/-- Modelled from the spec: the Display implementation for values lives in the
missing expression module; spec section 6 fixes the display forms. Host double
formatting is approximated by integer-or-fraction rendering (no claim below
prints a number). Non-literal expressions never reach `print`. -/
def displayValue : Expression → String
  | .literalNumber n => if n.den = 1 then toString n.num else toString n.num ++ "/" ++ toString n.den
  | .literalString s => s
  | .literalBoolean b => if b then "true" else "false"
  | .nil => "nil"
  | _ => "expr"

/-- Callable::arity. -/
def Callable.arity : Callable → Nat
  | .clock => 0
  | .loxDefinedFunction params _ _ => params.length

/-- The fresh environment LoxDefinedFunction::call builds and fills with the
parameter bindings (`env.define(name, args.get(i).cloned())`) — and then
never attaches to any chain. -/
def bindParams (params : List Token) (args : List Expression) : Environment :=
  (params.zip (List.range params.length)).foldl
    (fun env pi => env.define pi.1.lexeme (args.get? pi.2))
    ⟨[], []⟩

/-- Interpreter::eval_identifier (lines 475-485): callables shadow variables
and display as `<fn NAME>`. -/
def evalIdentifier (st : InterpState) (t : Token) : Outcome Expression :=
  if (getCallable st t.lexeme).isSome then
    .ok (.literalString ("<fn " ++ t.lexeme ++ ">"))
  else
    match getVariable st t.lexeme with
    | some v => .ok v
    | none => .error (.errored (LoxError.withMessage ("Use of undefined variable " ++ t.lexeme)))

/-- Interpreter::eval_identifier_at. -/
def evalIdentifierAt (st : InterpState) (t : Token) (depth : Nat) : Outcome Expression :=
  if (getCallableAt st t.lexeme depth).isSome then
    .ok (.literalString ("<fn " ++ t.lexeme ++ ">"))
  else
    match getVariableAt st t.lexeme depth with
    | some v => .ok v
    | none => .error (.errored (LoxError.withMessage ("Use of undefined variable " ++ t.lexeme)))

/-- Lexicographic order on strings, modelling Rust's `str` ordering for the
comparison closures (byte order and codepoint order agree on ASCII; no claim
compares strings). -/
def strLt : List Char → List Char → Bool
  | [], [] => false
  | [], _ :: _ => true
  | _ :: _, [] => false
  | a :: as_, b :: bs => if a = b then strLt as_ bs else decide (a < b)

/-- Interpreter::comparison (lines 523-573): same-type comparisons through the
three closures; a Nil on the right compares false against a non-Nil left;
Nil = Nil is true; unlike non-nil types are an error. -/
def comparison (l r : Expression) (n : Rat → Rat → Bool) (s : String → String → Bool)
    (b : Bool → Bool → Bool) : Outcome Expression :=
  match l with
  | .literalNumber ln =>
    match r with
    | .nil => .ok (.literalBoolean false)
    | .literalNumber rn => .ok (.literalBoolean (n ln rn))
    | _ => .error (.errored (LoxError.withMessage "Cannot compare unlike types"))
  | .literalString ls =>
    match r with
    | .nil => .ok (.literalBoolean false)
    | .literalString rs => .ok (.literalBoolean (s ls rs))
    | _ => .error (.errored (LoxError.withMessage "Cannot compare unlike types"))
  | .literalBoolean lb =>
    match r with
    | .nil => .ok (.literalBoolean false)
    | .literalBoolean rb => .ok (.literalBoolean (b lb rb))
    | _ => .error (.errored (LoxError.withMessage "Cannot compare unlike types"))
  | .nil =>
    match r with
    | .nil => .ok (.literalBoolean true)
    | _ => .ok (.literalBoolean false)
  | _ => .error (.errored (LoxError.withMessage "Invalid expression for comparison"))

/-- Interpreter::numeric_operation (lines 507-521). -/
def numericOperation (l r : Expression) (msg : String) (op : Rat → Rat → Outcome Rat) :
    Outcome Expression :=
  match l with
  | .literalNumber ln =>
    match r with
    | .literalNumber rn =>
      match op ln rn with
      | .ok q => .ok (.literalNumber q)
      | .error br => .error br
    | _ => .error (.errored (LoxError.withMessage msg))
  | _ => .error (.errored (LoxError.withMessage msg))

/-- Interpreter::eval_binary_expression (lines 388-473), after both operands
have been evaluated. `+` stringifies when either side is a string; division
by zero errors; boolean `<`/`>` use the `&`-of-negation closures. -/
def evalBinaryOp (l : Expression) (op : BinaryOperator) (r : Expression) : Outcome Expression :=
  match op with
  | .minus => numericOperation l r "Subtraction requires both operands to be numbers"
      (fun a b => .ok (a - b))
  | .plus =>
    match l with
    | .literalString _ => .ok (.literalString (displayValue l ++ displayValue r))
    | _ =>
      match r with
      | .literalString _ => .ok (.literalString (displayValue l ++ displayValue r))
      | _ => numericOperation l r "Addition requires both operands to be numbers"
          (fun a b => .ok (a + b))
  | .notEqual => comparison l r (fun a b => decide (a ≠ b))
      (fun a b => decide (a ≠ b)) (fun a b => decide (a ≠ b))
  | .greaterThanOrEqual => comparison l r (fun a b => decide (a ≥ b))
      (fun a b => !strLt a.data b.data) (fun a b => a || !b)
  | .lessThanOrEqual => comparison l r (fun a b => decide (a ≤ b))
      (fun a b => !strLt b.data a.data) (fun a b => !a || b)
  | .equal => comparison l r (fun a b => decide (a = b))
      (fun a b => decide (a = b)) (fun a b => decide (a = b))
  | .greaterThan => comparison l r (fun a b => decide (a > b))
      (fun a b => strLt b.data a.data) (fun a b => a && !b)
  | .lessThan => comparison l r (fun a b => decide (a < b))
      (fun a b => strLt a.data b.data) (fun a b => !a && b)
  | .multiplication => numericOperation l r "Multiplication requires both operands to be numbers"
      (fun a b => .ok (a * b))
  | .division => numericOperation l r "Division requires both operands to be numbers"
      (fun a b => if b = 0 then .error (.errored (LoxError.withMessage "Division by 0"))
                  else .ok (a / b))

/-- Result of a fuel-indexed interpreter step: `none` is fuel exhaustion.
State changes made before an error persist, exactly as with `&mut self`
threading plus `?` in the source. -/
abbrev Run (α : Type) := Option (InterpState × Outcome α)

/-- The `?` operator: pass errors through, keep going on `Ok`. -/
def runBind (x : Run α) (k : InterpState → α → Run β) : Run β :=
  match x with
  | none => none
  | some (st, .error br) => some (st, .error br)
  | some (st, .ok a) => k st a

mutual

/-- Interpreter::evaluate (src/loxrustlib/src/interpreter.rs lines 162-209)
together with the small eval_* helpers it dispatches to. Every recursive
call steps the fuel down once. -/
def evaluate : Nat → InterpState → Expression → Run Expression
  | 0, _, _ => none
  | Nat.succ f, st, e =>
    match e with
    | .assignment id identTok expr =>
      -- eval_assignment_expression / _at, chosen by the resolver depth
      let depth := lookupLocal st id
      runBind (evaluate f st expr) (fun st1 v =>
        if depth = 0 then some (assignVariable st1 identTok.lexeme v, .ok v)
        else some (assignVariableAt st1 identTok.lexeme v depth, .ok v))
    | .binary l op r =>
      runBind (evaluate f st l) (fun st1 lv =>
        runBind (evaluate f st1 r) (fun st2 rv =>
          some (st2, evalBinaryOp lv op rv)))
    | .unary op right =>
      -- eval_unary_expression (lines 293-310)
      runBind (evaluate f st right) (fun st1 rv =>
        match op with
        | .minus =>
          match rv with
          | .literalNumber n => some (st1, .ok (.literalNumber (-n)))
          | _ => some (st1, .error (.errored
              (LoxError.withMessage "Only a number can be negated this way")))
        | .not => some (st1, .ok (.literalBoolean (!isTruthy rv))))
    | .comma exprs =>
      -- eval_comma_expression (lines 278-291): `expressions.iter().rev()`
      runCommaRev f st exprs.reverse
    | .grouping inner => evaluate f st inner
    | .logical l op r =>
      -- eval_logical_expression (lines 312-329)
      runBind (evaluate f st l) (fun st1 lv =>
        match op, isTruthy lv with
        | .or, true => some (st1, .ok lv)
        | .and, false => some (st1, .ok lv)
        | _, _ => evaluate f st1 r)
    | .call callee closingParenthesis args =>
      -- eval_call_expression (lines 331-386)
      runBind
        (match callee with
         | .identifier id t => some (st, .ok (t.lexeme, lookupLocal st id))
         | _ =>
           runBind (evaluate f st callee) (fun st1 cv =>
             match cv with
             | .identifier id t => some (st1, .ok (t.lexeme, lookupLocal st1 id))
             | _ => some (st1, .error (.errored (LoxError.withMessageLine
                 "Invalid identifier for function call" closingParenthesis.line)))))
        (fun st1 identDepth =>
          let ident := identDepth.1
          let depth := identDepth.2
          let callable := if depth = 0 then getCallable st1 ident
                          else getCallableAt st1 ident depth
          match callable with
          | none => some (st1, .error (.errored (LoxError.withMessageLine
              ("Call to undefined function " ++ ident) closingParenthesis.line)))
          | some c =>
            if args.length ≠ c.arity then
              some (st1, .error (.errored (LoxError.withMessageLine
                ("Function " ++ ident ++ " arity mismatch") closingParenthesis.line)))
            else
              runBind (evalArgs f st1 args) (fun st2 vs =>
                match callCallable f st2 c vs with
                | none => none
                | some (st3, .ok v) => some (st3, .ok v)
                | some (st3, .error (.returned r)) => some (st3, .ok r)
                | some (st3, .error (.errored err)) => some (st3, .error (.errored err))))
    | .identifier id t =>
      let depth := lookupLocal st id
      if depth = 0 then some (st, evalIdentifier st t)
      else some (st, evalIdentifierAt st t depth)
    | .literalNumber n => some (st, .ok (.literalNumber n))
    | .literalBoolean b => some (st, .ok (.literalBoolean b))
    | .literalString s => some (st, .ok (.literalString s))
    | .nil => some (st, .ok .nil)

/-- The `for_each` body of eval_comma_expression, applied to the already
reversed list: each result overwrites `last_result` (so errors of all but the
last iteration are discarded), and the loop ends with the result of the LAST
element of the reversed list; an empty list is the empty-comma error. -/
def runCommaRev : Nat → InterpState → List Expression → Run Expression
  | 0, _, _ => none
  | Nat.succ _, st, [] =>
    some (st, .error (.errored (LoxError.withMessage "Cannot have an empty comma statement")))
  | Nat.succ f, st, x :: rest =>
    match evaluate f st x with
    | none => none
    | some (st1, res) =>
      match rest with
      | [] => some (st1, res)
      | _ :: _ => runCommaRev f st1 rest

/-- `arguments.iter().map(evaluate).collect::<Result<Vec<_>, _>>()`:
left-to-right with short-circuit on the first error. -/
def evalArgs : Nat → InterpState → List Expression → Run (List Expression)
  | 0, _, _ => none
  | Nat.succ _, st, [] => some (st, .ok [])
  | Nat.succ f, st, a :: rest =>
    runBind (evaluate f st a) (fun st1 v =>
      runBind (evalArgs f st1 rest) (fun st2 vs =>
        some (st2, .ok (v :: vs))))

/-- Callable::call. For LoxDefinedFunction (src/loxrustlib/src/funcs/loxfunc.rs
lines 39-49): a fresh environment is built and filled with the parameter
bindings but never attached to any chain (the local `env` is dropped); the
body runs via execute_block_statement_in_environment on the captured chain,
whose restore of the old chain is skipped when `?` propagates an unwinding;
a normal end of body yields Nil. The native clock's wall-time read is
modelled as 0 (never called by any claim). -/
def callCallable : Nat → InterpState → Callable → List Expression → Run Expression
  | 0, _, _, _ => none
  | Nat.succ _, st, .clock, _ => some (st, .ok (.literalNumber 0))
  | Nat.succ f, st, .loxDefinedFunction params body parentEnv, args =>
    let _droppedEnv := bindParams params args
    let oldEnv := st.environments
    let st1 := { st with environments := parentEnv }
    match executeList f st1 body with
    | none => none
    | some (st2, .error br) => some (st2, .error br)
    | some (st2, .ok _) => some ({ st2 with environments := oldEnv }, .ok Expression.nil)

/-- Interpreter::execute (lines 59-107) with the statement helpers inlined. -/
def execute : Nat → InterpState → Statement → Run Unit
  | 0, _, _ => none
  | Nat.succ f, st, s =>
    match s with
    | .expressionStatement e =>
      runBind (evaluate f st e) (fun st1 _ => some (st1, .ok ()))
    | .printStatement e =>
      -- print (lines 109-115): println of the Display form
      runBind (evaluate f st e) (fun st1 v =>
        some ({ st1 with output := st1.output ++ [displayValue v] }, .ok ()))
    | .variableDeclaration identTok initializer =>
      -- declare_variable (lines 238-251)
      match initializer with
      | none =>
        match st.environments.head? with
        | some r => some (storeSet st r ((storeGet st r).define identTok.lexeme none), .ok ())
        | none => none
      | some ie =>
        runBind (evaluate f st ie) (fun st1 v =>
          match st1.environments.head? with
          | some r =>
            some (storeSet st1 r ((storeGet st1 r).define identTok.lexeme (some v)), .ok ())
          | none => none)
    | .blockStatement statements =>
      -- execute_block_statement (lines 211-222): push_front a fresh
      -- environment, run the body, pop_front -- but `?` skips the pop on
      -- any unwinding
      let r := st.store.length
      let st1 := { st with store := st.store ++ [⟨[], []⟩],
                           environments := r :: st.environments }
      match executeList f st1 statements with
      | none => none
      | some (st2, .error br) => some (st2, .error br)
      | some (st2, .ok _) => some ({ st2 with environments := st2.environments.tail }, .ok ())
    | .ifStatement condition trueBranch elseBranch =>
      -- execute_if (lines 117-134): the then branch runs exactly when the
      -- condition value equals the literal Boolean(true)
      runBind (evaluate f st condition) (fun st1 cv =>
        match cv with
        | .literalBoolean true => execute f st1 trueBranch
        | _ =>
          match elseBranch with
          | none => some (st1, .ok ())
          | some el => execute f st1 el)
    | .whileStatement condition body => executeWhile f st condition body
    | .funDeclaration name parameters body =>
      -- define_function (lines 150-160)
      let ident := name.lexeme
      match getCallable st ident with
      | some _ => some (st, .error (.errored (LoxError.withMessageLine
          ("Function named " ++ ident ++ " already exists") name.line)))
      | none =>
        match st.environments.head? with
        | some r =>
          some (storeSet st r ((storeGet st r).defineCallable ident
            (.loxDefinedFunction parameters body st.environments)), .ok ())
        | none => none
    | .returnStatement _keyword value =>
      runBind (evaluate f st value) (fun st1 v => some (st1, .error (.returned v)))

/-- The statement loop shared by execute_block_statement and
execute_block_statement_in_environment: `self.execute(stmt)?` in order. -/
def executeList : Nat → InterpState → List Statement → Run Unit
  | 0, _, _ => none
  | Nat.succ _, st, [] => some (st, .ok ())
  | Nat.succ f, st, s :: rest =>
    runBind (execute f st s) (fun st1 _ => executeList f st1 rest)

/-- Interpreter::execute_while (lines 136-148). -/
def executeWhile : Nat → InterpState → Expression → Statement → Run Unit
  | 0, _, _, _ => none
  | Nat.succ f, st, condition, body =>
    runBind (evaluate f st condition) (fun st1 cv =>
      if isTruthy cv then
        runBind (execute f st1 body) (fun st2 _ => executeWhile f st2 condition body)
      else some (st1, .ok ()))

end

/-- Interpreter::interpret (lines 40-51): run the statements in order; an
`Errored` unwinding aborts (the diagnostic dump is not part of the output
trace); a top-level `Returned` is silently discarded by the
`if let Err(Errored(e))` and the loop continues. -/
def interpret : Nat → InterpState → List Statement → Run Unit
  | 0, _, _ => none
  | Nat.succ _, st, [] => some (st, .ok ())
  | Nat.succ f, st, s :: rest =>
    match execute f st s with
    | none => none
    | some (st1, .error (.errored e)) => some (st1, .error (.errored e))
    | some (st1, _) => interpret f st1 rest

/-- The stdout trace of a run. -/
def outputOf (x : Run α) : Option (List String) :=
  x.map (fun p => p.1.output)

/-- Did the run abort with a runtime error? -/
def isErrored (x : Run α) : Bool :=
  match x with
  | some (_, .error (.errored _)) => true
  | _ => false

namespace Parser

/-- Discriminant of a TokenKind, for the `mem::discriminant` comparisons in
Parser::match_peeked_token and Parser::consume_next. -/
def TokenKind.tag : TokenKind → Nat
  | .leftParen => 0
  | .rightParen => 1
  | .leftBrace => 2
  | .rightBrace => 3
  | .comma => 4
  | .dot => 5
  | .minus => 6
  | .plus => 7
  | .semicolon => 8
  | .slash => 9
  | .star => 10
  | .bang => 11
  | .bangEqual => 12
  | .equal => 13
  | .equalEqual => 14
  | .greater => 15
  | .greaterEqual => 16
  | .less => 17
  | .lessEqual => 18
  | .identifier _ => 19
  | .string _ => 20
  | .number _ => 21
  | .boolean _ => 22
  | .kwAnd => 23
  | .kwClass => 24
  | .kwElse => 25
  | .kwFun => 26
  | .kwFor => 27
  | .kwIf => 28
  | .kwNil => 29
  | .kwOr => 30
  | .kwReturn => 31
  | .kwSuper => 32
  | .kwThis => 33
  | .kwVar => 34
  | .kwWhile => 35
  | .kwPrint => 36
  | .eof => 37

/-- Parser::match_next_token (src/loxrustlib/src/parser.rs lines 32-42):
peek; consume only when the kind's discriminant matches one of the
candidates. The token stream is the scanner output as a list. -/
def matchNextToken (ts : List Token) (args : List TokenKind) : Option Token × List Token :=
  match ts with
  | [] => (none, ts)
  | t :: rest =>
    if args.any (fun p => TokenKind.tag t.kind == TokenKind.tag p) then (some t, rest)
    else (none, ts)

/-- Parser::check_next (lines 67-71): full equality on the peeked kind. -/
def checkNext (ts : List Token) (expected : TokenKind) : Bool :=
  match ts with
  | [] => false
  | t :: _ => decide (t.kind = expected)

/-- Parser::parse_token_as_unary_op (lines 73-82). -/
def parseTokenAsUnaryOp (t : Token) : Except LoxError UnaryOperator :=
  match t.kind with
  | .bang => .ok .not
  | .minus => .ok .minus
  | _ => .error (LoxError.withLine "Expected unary operator" t.line)

/-- Parser::parse_token_as_logical_op (lines 103-112). -/
def parseTokenAsLogicalOp (t : Token) : Except LoxError LogicalOperator :=
  match t.kind with
  | .kwAnd => .ok .and
  | .kwOr => .ok .or
  | _ => .error (LoxError.withLine "Expected logical operator" t.line)

/-- Parser::parse_token_as_binary_op (lines 84-101). -/
def parseTokenAsBinaryOp (t : Token) : Except LoxError BinaryOperator :=
  match t.kind with
  | .plus => .ok .plus
  | .minus => .ok .minus
  | .bangEqual => .ok .notEqual
  | .equalEqual => .ok .equal
  | .greaterEqual => .ok .greaterThanOrEqual
  | .greater => .ok .greaterThan
  | .lessEqual => .ok .lessThanOrEqual
  | .less => .ok .lessThan
  | .slash => .ok .division
  | .star => .ok .multiplication
  | _ => .error (LoxError.withLine "Expected binary operator" t.line)

/-- Error-through bind for parser results (`?`); `none` is fuel exhaustion. -/
def pbind (x : Option (Except LoxError α)) (k : α → Option (Except LoxError β)) :
    Option (Except LoxError β) :=
  match x with
  | none => none
  | some (.error e) => some (.error e)
  | some (.ok a) => k a

mutual

/-- Parser::expression (line 359). -/
def expression : Nat → List Token → Option (Except LoxError (Expression × List Token))
  | 0, _ => none
  | Nat.succ f, ts => assignment f ts

/-- Parser::assignment (lines 363-385): parse an or-expression, peek
(erroring at end of stream), and on `=` require the LHS to be an identifier.
This parser predates the expression-id field; identifiers carry id 0. -/
def assignment : Nat → List Token → Option (Except LoxError (Expression × List Token))
  | 0, _ => none
  | Nat.succ f, ts =>
    pbind (orExpr f ts) (fun er =>
      match er.2.head? with
      | none => some (.error (LoxError.withMessage "Invalid assignment expression"))
      | some previous =>
        match matchNextToken er.2 [TokenKind.equal] with
        | (some _, ts2) =>
          pbind (assignment f ts2) (fun vr =>
            match er.1 with
            | .identifier id t => some (.ok (.assignment id t vr.1, vr.2))
            | _ => some (.error (LoxError.withLine "Invalid assignment target" previous.line)))
        | (none, _) => some (.ok (er.1, er.2)))

/-- Parser::or (lines 387-402); source name `or`. Note the right operand is
parsed with `comparison`, exactly as in the source. -/
def orExpr : Nat → List Token → Option (Except LoxError (Expression × List Token))
  | 0, _ => none
  | Nat.succ f, ts => pbind (andExpr f ts) (fun er => orLoop f er.1 er.2)

def orLoop : Nat → Expression → List Token → Option (Except LoxError (Expression × List Token))
  | 0, _, _ => none
  | Nat.succ f, expr, ts =>
    match matchNextToken ts [TokenKind.kwOr] with
    | (none, _) => some (.ok (expr, ts))
    | (some opTok, ts1) =>
      match parseTokenAsLogicalOp opTok with
      | .error e => some (.error e)
      | .ok operator =>
        pbind (comparison f ts1) (fun rr => orLoop f (.logical expr operator rr.1) rr.2)

/-- Parser::and (lines 404-419); source name `and`; right operand also
`comparison`, as in the source. -/
def andExpr : Nat → List Token → Option (Except LoxError (Expression × List Token))
  | 0, _ => none
  | Nat.succ f, ts => pbind (equality f ts) (fun er => andLoop f er.1 er.2)

def andLoop : Nat → Expression → List Token → Option (Except LoxError (Expression × List Token))
  | 0, _, _ => none
  | Nat.succ f, expr, ts =>
    match matchNextToken ts [TokenKind.kwAnd] with
    | (none, _) => some (.ok (expr, ts))
    | (some opTok, ts1) =>
      match parseTokenAsLogicalOp opTok with
      | .error e => some (.error e)
      | .ok operator =>
        pbind (comparison f ts1) (fun rr => andLoop f (.logical expr operator rr.1) rr.2)

/-- Parser::equality (lines 421-436). -/
def equality : Nat → List Token → Option (Except LoxError (Expression × List Token))
  | 0, _ => none
  | Nat.succ f, ts => pbind (comparison f ts) (fun er => equalityLoop f er.1 er.2)

def equalityLoop : Nat → Expression → List Token → Option (Except LoxError (Expression × List Token))
  | 0, _, _ => none
  | Nat.succ f, expr, ts =>
    match matchNextToken ts [TokenKind.bangEqual, TokenKind.equalEqual] with
    | (none, _) => some (.ok (expr, ts))
    | (some opTok, ts1) =>
      match parseTokenAsBinaryOp opTok with
      | .error e => some (.error e)
      | .ok operator =>
        pbind (comparison f ts1) (fun rr => equalityLoop f (.binary expr operator rr.1) rr.2)

/-- Parser::comparison (lines 438-453). -/
def comparison : Nat → List Token → Option (Except LoxError (Expression × List Token))
  | 0, _ => none
  | Nat.succ f, ts => pbind (term f ts) (fun er => comparisonLoop f er.1 er.2)

def comparisonLoop : Nat → Expression → List Token → Option (Except LoxError (Expression × List Token))
  | 0, _, _ => none
  | Nat.succ f, expr, ts =>
    match matchNextToken ts [TokenKind.greater, TokenKind.greaterEqual, TokenKind.less,
        TokenKind.lessEqual] with
    | (none, _) => some (.ok (expr, ts))
    | (some opTok, ts1) =>
      match parseTokenAsBinaryOp opTok with
      | .error e => some (.error e)
      | .ok operator =>
        pbind (term f ts1) (fun rr => comparisonLoop f (.binary expr operator rr.1) rr.2)

/-- Parser::term (lines 455-470). -/
def term : Nat → List Token → Option (Except LoxError (Expression × List Token))
  | 0, _ => none
  | Nat.succ f, ts => pbind (factor f ts) (fun er => termLoop f er.1 er.2)

def termLoop : Nat → Expression → List Token → Option (Except LoxError (Expression × List Token))
  | 0, _, _ => none
  | Nat.succ f, expr, ts =>
    match matchNextToken ts [TokenKind.minus, TokenKind.plus] with
    | (none, _) => some (.ok (expr, ts))
    | (some opTok, ts1) =>
      match parseTokenAsBinaryOp opTok with
      | .error e => some (.error e)
      | .ok operator =>
        pbind (factor f ts1) (fun rr => termLoop f (.binary expr operator rr.1) rr.2)

/-- Parser::factor (lines 472-487). -/
def factor : Nat → List Token → Option (Except LoxError (Expression × List Token))
  | 0, _ => none
  | Nat.succ f, ts => pbind (unary f ts) (fun er => factorLoop f er.1 er.2)

def factorLoop : Nat → Expression → List Token → Option (Except LoxError (Expression × List Token))
  | 0, _, _ => none
  | Nat.succ f, expr, ts =>
    match matchNextToken ts [TokenKind.slash, TokenKind.star] with
    | (none, _) => some (.ok (expr, ts))
    | (some opTok, ts1) =>
      match parseTokenAsBinaryOp opTok with
      | .error e => some (.error e)
      | .ok operator =>
        pbind (unary f ts1) (fun rr => factorLoop f (.binary expr operator rr.1) rr.2)

/-- Parser::unary (src/loxrustlib/src/parser.rs lines 489-499): a `!` or `-`
followed by a CALL expression (`self.call()?`, not `self.unary()`); with no
operator, fall through to `call`. -/
def unary : Nat → List Token → Option (Except LoxError (Expression × List Token))
  | 0, _ => none
  | Nat.succ f, ts =>
    match matchNextToken ts [TokenKind.bang, TokenKind.minus] with
    | (none, _) => call f ts
    | (some opTok, ts1) =>
      match parseTokenAsUnaryOp opTok with
      | .error e => some (.error e)
      | .ok operator =>
        pbind (call f ts1) (fun rr => some (.ok (.unary operator rr.1, rr.2)))

/-- Parser::call (lines 501-535). -/
def call : Nat → List Token → Option (Except LoxError (Expression × List Token))
  | 0, _ => none
  | Nat.succ f, ts => pbind (primary f ts) (fun er => callLoop f er.1 er.2)

def callLoop : Nat → Expression → List Token → Option (Except LoxError (Expression × List Token))
  | 0, _, _ => none
  | Nat.succ f, expr, ts =>
    match matchNextToken ts [TokenKind.leftParen] with
    | (none, _) => some (.ok (expr, ts))
    | (some openingParen, ts1) =>
      pbind
        (if checkNext ts1 TokenKind.rightParen then some (.ok (([] : List Expression), ts1))
         else argsLoop f [] ts1 openingParen)
        (fun ar =>
          match matchNextToken ar.2 [TokenKind.rightParen] with
          | (none, _) =>
            some (.error (LoxError.withLine "Expected closing parenthesis" openingParen.line))
          | (some t, ts2) => callLoop f (.call expr t ar.1) ts2)

/-- The argument loop inside Parser::call, with the 255 cap checked before
each argument. -/
def argsLoop : Nat → List Expression → List Token → Token →
    Option (Except LoxError (List Expression × List Token))
  | 0, _, _, _ => none
  | Nat.succ f, acc, ts, openingParen =>
    if acc.length ≥ 255 then
      some (.error (LoxError.withLine "Cannot have more than 255 arguments to a call."
        openingParen.line))
    else
      pbind (expression f ts) (fun er =>
        match matchNextToken er.2 [TokenKind.comma] with
        | (none, ts2) => some (.ok (acc ++ [er.1], ts2))
        | (some _, ts2) => argsLoop f (acc ++ [er.1]) ts2 openingParen)

/-- Parser::primary (lines 537-609), including the grouping / comma-list
handling after a left parenthesis. -/
def primary : Nat → List Token → Option (Except LoxError (Expression × List Token))
  | 0, _ => none
  | Nat.succ f, ts =>
    match matchNextToken ts [TokenKind.kwNil, TokenKind.boolean false, TokenKind.number 0,
        TokenKind.string "", TokenKind.identifier "", TokenKind.leftParen] with
    | (none, _) => some (.error (LoxError.withLine "Expected expression" 0))
    | (some t, ts1) =>
      match t.kind with
      | TokenKind.leftParen =>
        pbind (expression f ts1) (fun er =>
          match er.2 with
          | [] => some (.error (LoxError.withLine "Expected closing parenthesis" t.line))
          | nt :: ts2 =>
            match nt.kind with
            | TokenKind.rightParen => some (.ok (.grouping er.1, ts2))
            | TokenKind.comma => commaLoop f [er.1] ts2 t.line
            | _ => some (.error (LoxError.withLine "Expected closing parenthesis" t.line)))
      | TokenKind.number n => some (.ok (.literalNumber n, ts1))
      | TokenKind.string s => some (.ok (.literalString s, ts1))
      | TokenKind.boolean b => some (.ok (.literalBoolean b, ts1))
      | TokenKind.kwNil => some (.ok (.nil, ts1))
      | TokenKind.identifier _ => some (.ok (.identifier 0 t, ts1))
      | _ => some (.error (LoxError.withLine "Unexpected token" t.line))

/-- The comma-expression loop inside Parser::primary. -/
def commaLoop : Nat → List Expression → List Token → Nat →
    Option (Except LoxError (Expression × List Token))
  | 0, _, _, _ => none
  | Nat.succ f, acc, ts, line =>
    pbind (expression f ts) (fun er =>
      match er.2 with
      | [] => some (.error (LoxError.withLine "Expected comma or closing parenthesis" line))
      | nt :: ts2 =>
        match nt.kind with
        | TokenKind.rightParen => some (.ok (.comma (acc ++ [er.1]), ts2))
        | TokenKind.comma => commaLoop f (acc ++ [er.1]) ts2 line
        | _ => some (.error (LoxError.withLine "Expected comma or closing parenthesis" line)))

end

end Parser

/-! ## Concrete programs and projections used by the claim theorems -/

/-- An identifier token on line 1. -/
def identTok (s : String) : Token := ⟨.identifier s, s, 1⟩

/-- A closing-parenthesis token on line 1. -/
def rparenTok : Token := ⟨.rightParen, ")", 1⟩

/-- A `return` keyword token on line 1. -/
def returnTok : Token := ⟨.kwReturn, "return", 1⟩

/-- The error message of an `Errored` abort, if any. -/
def errorMessageOf (x : Run α) : Option String :=
  match x with
  | some (_, .error (.errored e)) => some e.message
  | _ => none

/-- `fun f(x) ... return x; ...  f(5);` as the parser would build it. -/
def funCallProg : List Statement :=
  [ .funDeclaration (identTok "f") [identTok "x"]
      [.returnStatement returnTok (.identifier 1 (identTok "x"))],
    .expressionStatement (.call (.identifier 2 (identTok "f")) rparenTok [.literalNumber 5]) ]

/-- The spec's shadowing scenario: `var a = "global"; ... var a = "inner"; print a; ... print a;`. -/
def shadowProg : List Statement :=
  [ .variableDeclaration (identTok "a") (some (.literalString "global")),
    .blockStatement [ .variableDeclaration (identTok "a") (some (.literalString "inner")),
                      .printStatement (.identifier 1 (identTok "a")) ],
    .printStatement (.identifier 2 (identTok "a")) ]

/-- `if (1) print "then"; else print "else";`. -/
def ifOneProg : List Statement :=
  [ .ifStatement (.literalNumber 1) (.printStatement (.literalString "then"))
      (some (.printStatement (.literalString "else"))) ]

/-- A state whose global frame (store slot 0) and current inner frame (store
slot 1) both declare `x`; the chain runs inner-to-global as `[1, 0]`. -/
def twoFrameState : InterpState :=
  { store := [⟨[("x", some (.literalNumber 0))], []⟩, ⟨[("x", some (.literalNumber 0))], []⟩],
    environments := [1, 0], locals := [], output := [] }

/-- A block whose only statement raises a runtime error (`nil + nil`). -/
def failingBlock : Statement :=
  .blockStatement [.expressionStatement (.binary .nil .plus .nil)]

/-- The token stream of the source `!!true;` (two bangs, `true`, `;`, eof). -/
def doubleBangTokens : List Token :=
  [⟨.bang, "!", 1⟩, ⟨.bang, "!", 1⟩, ⟨.boolean true, "true", 1⟩, ⟨.semicolon, ";", 1⟩,
   ⟨.eof, "eof", 1⟩]

/-- Number of newline characters in a character list. -/
def countNL : List Char → Nat
  | [] => 0
  | c :: cs => (if c = '\n' then 1 else 0) + countNL cs

/-- A three-line input: a string literal spanning lines 1-2, a `+` on line 2,
a `//` comment ending line 2, and a `-` on line 3. -/
def commentStringInput : List Char :=
  [quoteChar, 'a', '\n', 'b', quoteChar, '+', '/', '/', 'c', '\n', '-']

/-! ## Scanner line-tracking lemmas (for C7) -/

theorem countNL_dropWhile (p : Char → Bool) (h : p '\n' = false) (cs : List Char) :
    countNL (cs.dropWhile p) = countNL cs := by
  induction cs with
  | nil => rfl
  | cons c rest ih =>
    by_cases hp : p c
    · have hcn : ¬ c = '\n' := fun he => by rw [he, h] at hp; exact Bool.noConfusion hp
      simp [List.dropWhile, hp, ih, countNL, hcn]
    · simp [List.dropWhile, hp]

theorem createNumberToken_some {c : Char} {cs : List Char} {line : Nat} {t : Token}
    {r : List Char} (h : Scanner.createNumberToken c cs line = some (t, r)) :
    t.line = line ∧ r = cs.dropWhile (fun x => Scanner.isDigitChar x || x = '.') := by
  simp only [Scanner.createNumberToken] at h
  split at h
  · injection h with h1
    injection h1 with h2 h3
    subst h3
    rw [← h2]
    exact ⟨rfl, rfl⟩
  · exact Option.noConfusion h

theorem createIdentifierToken_spec (c : Char) (cs : List Char) (line : Nat) :
    (Scanner.createIdentifierToken c cs line).1.line = line ∧
    (Scanner.createIdentifierToken c cs line).2 = cs.dropWhile Scanner.isAlphanumericChar := by
  simp only [Scanner.createIdentifierToken]
  split <;> exact ⟨rfl, rfl⟩

theorem ne_nl_of_headKind {c : Char} {k : Scanner.HeadKind} (hk : Scanner.headKind c = k)
    (hne : k ≠ .newline) : ¬ c = '\n' :=
  fun he => by subst he; exact hne hk.symm

theorem headKind_spec (c : Char) :
    (Scanner.headKind c = .newline → c = '\n') ∧
    (Scanner.headKind c = .slashK → c = '/') ∧
    (Scanner.headKind c = .quoteK → c = quoteChar) ∧
    (∀ s a d b e, Scanner.headKind c = .twoChar s a d b e → s = '=') := by
  unfold Scanner.headKind
  by_cases h1 : c = '('
  · rw [if_pos h1]
    exact ⟨fun hcon => Scanner.HeadKind.noConfusion hcon, fun hcon => Scanner.HeadKind.noConfusion hcon, fun hcon => Scanner.HeadKind.noConfusion hcon, fun _ _ _ _ _ hcon => Scanner.HeadKind.noConfusion hcon⟩
  rw [if_neg h1]
  by_cases h2 : c = ')'
  · rw [if_pos h2]
    exact ⟨fun hcon => Scanner.HeadKind.noConfusion hcon, fun hcon => Scanner.HeadKind.noConfusion hcon, fun hcon => Scanner.HeadKind.noConfusion hcon, fun _ _ _ _ _ hcon => Scanner.HeadKind.noConfusion hcon⟩
  rw [if_neg h2]
  by_cases h3 : c = lbraceChar
  · rw [if_pos h3]
    exact ⟨fun hcon => Scanner.HeadKind.noConfusion hcon, fun hcon => Scanner.HeadKind.noConfusion hcon, fun hcon => Scanner.HeadKind.noConfusion hcon, fun _ _ _ _ _ hcon => Scanner.HeadKind.noConfusion hcon⟩
  rw [if_neg h3]
  by_cases h4 : c = rbraceChar
  · rw [if_pos h4]
    exact ⟨fun hcon => Scanner.HeadKind.noConfusion hcon, fun hcon => Scanner.HeadKind.noConfusion hcon, fun hcon => Scanner.HeadKind.noConfusion hcon, fun _ _ _ _ _ hcon => Scanner.HeadKind.noConfusion hcon⟩
  rw [if_neg h4]
  by_cases h5 : c = ','
  · rw [if_pos h5]
    exact ⟨fun hcon => Scanner.HeadKind.noConfusion hcon, fun hcon => Scanner.HeadKind.noConfusion hcon, fun hcon => Scanner.HeadKind.noConfusion hcon, fun _ _ _ _ _ hcon => Scanner.HeadKind.noConfusion hcon⟩
  rw [if_neg h5]
  by_cases h6 : c = '.'
  · rw [if_pos h6]
    exact ⟨fun hcon => Scanner.HeadKind.noConfusion hcon, fun hcon => Scanner.HeadKind.noConfusion hcon, fun hcon => Scanner.HeadKind.noConfusion hcon, fun _ _ _ _ _ hcon => Scanner.HeadKind.noConfusion hcon⟩
  rw [if_neg h6]
  by_cases h7 : c = '-'
  · rw [if_pos h7]
    exact ⟨fun hcon => Scanner.HeadKind.noConfusion hcon, fun hcon => Scanner.HeadKind.noConfusion hcon, fun hcon => Scanner.HeadKind.noConfusion hcon, fun _ _ _ _ _ hcon => Scanner.HeadKind.noConfusion hcon⟩
  rw [if_neg h7]
  by_cases h8 : c = '+'
  · rw [if_pos h8]
    exact ⟨fun hcon => Scanner.HeadKind.noConfusion hcon, fun hcon => Scanner.HeadKind.noConfusion hcon, fun hcon => Scanner.HeadKind.noConfusion hcon, fun _ _ _ _ _ hcon => Scanner.HeadKind.noConfusion hcon⟩
  rw [if_neg h8]
  by_cases h9 : c = ';'
  · rw [if_pos h9]
    exact ⟨fun hcon => Scanner.HeadKind.noConfusion hcon, fun hcon => Scanner.HeadKind.noConfusion hcon, fun hcon => Scanner.HeadKind.noConfusion hcon, fun _ _ _ _ _ hcon => Scanner.HeadKind.noConfusion hcon⟩
  rw [if_neg h9]
  by_cases h10 : c = '*'
  · rw [if_pos h10]
    exact ⟨fun hcon => Scanner.HeadKind.noConfusion hcon, fun hcon => Scanner.HeadKind.noConfusion hcon, fun hcon => Scanner.HeadKind.noConfusion hcon, fun _ _ _ _ _ hcon => Scanner.HeadKind.noConfusion hcon⟩
  rw [if_neg h10]
  by_cases h11 : c = '!'
  · rw [if_pos h11]
    exact ⟨fun hcon => Scanner.HeadKind.noConfusion hcon, fun hcon => Scanner.HeadKind.noConfusion hcon, fun hcon => Scanner.HeadKind.noConfusion hcon, fun s a d b e hcon => by injection hcon with hh; exact hh.symm⟩
  rw [if_neg h11]
  by_cases h12 : c = '='
  · rw [if_pos h12]
    exact ⟨fun hcon => Scanner.HeadKind.noConfusion hcon, fun hcon => Scanner.HeadKind.noConfusion hcon, fun hcon => Scanner.HeadKind.noConfusion hcon, fun s a d b e hcon => by injection hcon with hh; exact hh.symm⟩
  rw [if_neg h12]
  by_cases h13 : c = '<'
  · rw [if_pos h13]
    exact ⟨fun hcon => Scanner.HeadKind.noConfusion hcon, fun hcon => Scanner.HeadKind.noConfusion hcon, fun hcon => Scanner.HeadKind.noConfusion hcon, fun s a d b e hcon => by injection hcon with hh; exact hh.symm⟩
  rw [if_neg h13]
  by_cases h14 : c = '>'
  · rw [if_pos h14]
    exact ⟨fun hcon => Scanner.HeadKind.noConfusion hcon, fun hcon => Scanner.HeadKind.noConfusion hcon, fun hcon => Scanner.HeadKind.noConfusion hcon, fun s a d b e hcon => by injection hcon with hh; exact hh.symm⟩
  rw [if_neg h14]
  by_cases h15 : c = '/'
  · rw [if_pos h15]
    exact ⟨fun hcon => Scanner.HeadKind.noConfusion hcon, fun _ => h15, fun hcon => Scanner.HeadKind.noConfusion hcon, fun _ _ _ _ _ hcon => Scanner.HeadKind.noConfusion hcon⟩
  rw [if_neg h15]
  by_cases h16 : c = ' '
  · rw [if_pos h16]
    exact ⟨fun hcon => Scanner.HeadKind.noConfusion hcon, fun hcon => Scanner.HeadKind.noConfusion hcon, fun hcon => Scanner.HeadKind.noConfusion hcon, fun _ _ _ _ _ hcon => Scanner.HeadKind.noConfusion hcon⟩
  rw [if_neg h16]
  by_cases h17 : c = '\r'
  · rw [if_pos h17]
    exact ⟨fun hcon => Scanner.HeadKind.noConfusion hcon, fun hcon => Scanner.HeadKind.noConfusion hcon, fun hcon => Scanner.HeadKind.noConfusion hcon, fun _ _ _ _ _ hcon => Scanner.HeadKind.noConfusion hcon⟩
  rw [if_neg h17]
  by_cases h18 : c = '\t'
  · rw [if_pos h18]
    exact ⟨fun hcon => Scanner.HeadKind.noConfusion hcon, fun hcon => Scanner.HeadKind.noConfusion hcon, fun hcon => Scanner.HeadKind.noConfusion hcon, fun _ _ _ _ _ hcon => Scanner.HeadKind.noConfusion hcon⟩
  rw [if_neg h18]
  by_cases h19 : c = '\n'
  · rw [if_pos h19]
    exact ⟨fun _ => h19, fun hcon => Scanner.HeadKind.noConfusion hcon, fun hcon => Scanner.HeadKind.noConfusion hcon, fun _ _ _ _ _ hcon => Scanner.HeadKind.noConfusion hcon⟩
  rw [if_neg h19]
  by_cases h20 : c = quoteChar
  · rw [if_pos h20]
    exact ⟨fun hcon => Scanner.HeadKind.noConfusion hcon, fun hcon => Scanner.HeadKind.noConfusion hcon, fun _ => h20, fun _ _ _ _ _ hcon => Scanner.HeadKind.noConfusion hcon⟩
  rw [if_neg h20]
  by_cases h21 : Scanner.isDigitChar c = true
  · rw [if_pos h21]
    exact ⟨fun hcon => Scanner.HeadKind.noConfusion hcon, fun hcon => Scanner.HeadKind.noConfusion hcon, fun hcon => Scanner.HeadKind.noConfusion hcon, fun _ _ _ _ _ hcon => Scanner.HeadKind.noConfusion hcon⟩
  rw [if_neg h21]
  by_cases h22 : Scanner.isAlphabeticalChar c = true
  · rw [if_pos h22]
    exact ⟨fun hcon => Scanner.HeadKind.noConfusion hcon, fun hcon => Scanner.HeadKind.noConfusion hcon, fun hcon => Scanner.HeadKind.noConfusion hcon, fun _ _ _ _ _ hcon => Scanner.HeadKind.noConfusion hcon⟩
  rw [if_neg h22]
  exact ⟨fun hcon => Scanner.HeadKind.noConfusion hcon, fun hcon => Scanner.HeadKind.noConfusion hcon, fun hcon => Scanner.HeadKind.noConfusion hcon, fun _ _ _ _ _ hcon => Scanner.HeadKind.noConfusion hcon⟩

/-- C7, amended: a pull of the scanner, on input containing no string
literal and no slash, advances the line counter by exactly the number of
newlines it consumes (final line + newlines remaining = initial line +
newlines in input) and stamps the produced token with the final counter,
which is the line where the first character of the token appeared, since
such a pull never consumes a newline after that character. (For string literals the token
carries the closing-quote line, and the newline ending a line comment is
consumed without incrementing the counter, as the counterexample shows.) -/
theorem c7_line_tracking_amended (f : Nat) :
    ∀ (cs : List Char) (line : Nat) (res : Except LoxError Token) (rest : List Char)
      (line2 : Nat), quoteChar ∉ cs → '/' ∉ cs →
      Scanner.scanGo f cs line = Scanner.ScanStep.tok res rest line2 →
      line2 + countNL rest = line + countNL cs ∧ ∀ t, res = .ok t → t.line = line2 := by
  induction f with
  | zero =>
    intro cs line res rest line2 _ _ h
    exact Scanner.ScanStep.noConfusion h
  | succ f ih =>
    intro cs line res rest line2 hq hs h
    cases cs with
    | nil =>
      simp only [Scanner.scanGo] at h
      injection h with h1 h2 h3
      subst h2; subst h3
      refine ⟨rfl, ?_⟩
      intro t ht
      rw [← h1] at ht
      injection ht with h4
      rw [← h4]
    | cons c cs0 =>
      have hq0 : quoteChar ∉ cs0 := fun hm => hq (List.mem_cons_of_mem _ hm)
      have hs0 : '/' ∉ cs0 := fun hm => hs (List.mem_cons_of_mem _ hm)
      have hqc : ¬ c = quoteChar := fun he => hq (he ▸ List.mem_cons_self c cs0)
      have hsc : ¬ c = '/' := fun he => hs (he ▸ List.mem_cons_self c cs0)
      obtain ⟨hnlinv, hslinv, hqinv, h2inv⟩ := headKind_spec c
      simp only [Scanner.scanGo] at h
      cases hk : Scanner.headKind c with
      | simple kind lex =>
        have hcn := ne_nl_of_headKind hk (fun hcon => Scanner.HeadKind.noConfusion hcon)
        rw [hk] at h
        injection h with h1 h2 h3
        subst h2; subst h3
        refine ⟨by simp [countNL, hcn], ?_⟩
        intro t ht; rw [← h1] at ht; injection ht with h4; rw [← h4]
      | twoChar second twoKind twoLex oneKind oneLex =>
        have hsecond := h2inv second twoKind twoLex oneKind oneLex hk
        subst hsecond
        have hcn := ne_nl_of_headKind hk (fun hcon => Scanner.HeadKind.noConfusion hcon)
        rw [hk] at h
        replace h :
            (if cs0.head? = some '=' then
              Scanner.ScanStep.tok (.ok ⟨twoKind, twoLex, line⟩) cs0.tail line
            else Scanner.ScanStep.tok (.ok ⟨oneKind, oneLex, line⟩) cs0 line) =
              Scanner.ScanStep.tok res rest line2 := h
        by_cases hpk : cs0.head? = some '='
        · rw [if_pos hpk] at h
          cases cs0 with
          | nil => exact absurd hpk (by simp)
          | cons c2 cs1 =>
            simp only [List.head?] at hpk
            injection hpk with hc2
            subst hc2
            injection h with h1 h2 h3
            subst h2; subst h3
            refine ⟨by simp [countNL, hcn], ?_⟩
            intro t ht; rw [← h1] at ht; injection ht with h4; rw [← h4]
        · rw [if_neg hpk] at h
          injection h with h1 h2 h3
          subst h2; subst h3
          refine ⟨by simp [countNL, hcn], ?_⟩
          intro t ht; rw [← h1] at ht; injection ht with h4; rw [← h4]
      | slashK => exact absurd (hslinv hk) hsc
      | whitespace =>
        have hcn := ne_nl_of_headKind hk (fun hcon => Scanner.HeadKind.noConfusion hcon)
        rw [hk] at h
        obtain ⟨ha, hb⟩ := ih cs0 line res rest line2 hq0 hs0 h
        refine ⟨?_, hb⟩
        rw [ha]; simp [countNL, hcn]
      | newline =>
        have hc := hnlinv hk
        subst hc
        rw [hk] at h
        obtain ⟨ha, hb⟩ := ih cs0 (line + 1) res rest line2 hq0 hs0 h
        refine ⟨?_, hb⟩
        rw [ha]; simp [countNL]; omega
      | quoteK => exact absurd (hqinv hk) hqc
      | digit =>
        have hcn := ne_nl_of_headKind hk (fun hcon => Scanner.HeadKind.noConfusion hcon)
        rw [hk] at h
        rcases hN : Scanner.createNumberToken c cs0 line with _ | ⟨t0, r2⟩
        · rw [hN] at h; exact Scanner.ScanStep.noConfusion h
        · rw [hN] at h
          injection h with h1 h2 h3
          subst h2; subst h3
          obtain ⟨htl, hr⟩ := createNumberToken_some hN
          refine ⟨?_, ?_⟩
          · rw [hr, countNL_dropWhile _ (by decide)]; simp [countNL, hcn]
          · intro t ht; rw [← h1] at ht; injection ht with h4; rw [← h4]; exact htl
      | alpha =>
        have hcn := ne_nl_of_headKind hk (fun hcon => Scanner.HeadKind.noConfusion hcon)
        rw [hk] at h
        rcases hI : Scanner.createIdentifierToken c cs0 line with ⟨t0, r2⟩
        rw [hI] at h
        injection h with h1 h2 h3
        subst h2; subst h3
        obtain ⟨htl, hr⟩ := createIdentifierToken_spec c cs0 line
        rw [hI] at htl hr
        refine ⟨?_, ?_⟩
        · rw [show r2 = cs0.dropWhile Scanner.isAlphanumericChar from hr,
            countNL_dropWhile _ (by decide)]
          simp [countNL, hcn]
        · intro t ht; rw [← h1] at ht; injection ht with h4; rw [← h4]; exact htl
      | unknown =>
        have hcn := ne_nl_of_headKind hk (fun hcon => Scanner.HeadKind.noConfusion hcon)
        rw [hk] at h
        injection h with h1 h2 h3
        subst h2; subst h3
        refine ⟨by simp [countNL, hcn], ?_⟩
        intro t ht; rw [← h1] at ht
        exact Except.noConfusion ht

/-- Witness for the amended C7 at the input newline-then-plus starting on
line 1: the plus token is stamped line 2 and the counter ends at 2. -/
theorem c7_line_tracking_amended_witness :
    (2 : Nat) + countNL [] = 1 + countNL ['\n', '+'] ∧
    ∀ t, (Except.ok (⟨TokenKind.plus, "+", 2⟩ : Token) : Except LoxError Token) = .ok t →
      t.line = 2 :=
  c7_line_tracking_amended 3 ['\n', '+'] 1 (.ok ⟨TokenKind.plus, "+", 2⟩) [] 2
    (by decide) (by decide) rfl

/-- C7 counterexample: on the three-line input whose string literal spans
lines 1-2 and whose line comment ends line 2, the scanner stamps every token
with line 2 (string token: closing-quote line; the minus after the comment:
the un-incremented counter), whereas the claim demands lines 1, 2, 3 and 3
(string at its first character, minus on line 3, eof on line 3). -/
theorem c7_token_line_counterexample :
    Scanner.tokenLines commentStringInput = [2, 2, 2, 2] ∧
    Scanner.tokenLines commentStringInput ≠ [1, 2, 3, 3] :=
  ⟨rfl, by decide⟩

/-! ## Claim theorems -/

/-- C1: the claim says a user-defined call binds each parameter in a fresh
environment parented on the captured chain and executes the body there. In
the code (LoxDefinedFunction::call) the environment holding the parameter
bindings is a local that is dropped unused, and the body runs on the bare
captured chain, so `fun f(x) ... return x; ... f(5);` aborts with
"Use of undefined variable x" instead of returning 5. -/
theorem c1_call_parameters_not_bound :
    errorMessageOf (interpret 50 initState funCallProg) = some "Use of undefined variable x" :=
  rfl

/-- C2: the claim says lookup returns the innermost binding, so the spec
scenario prints `inner` then `global`. Interpreter::get_variable iterates
`environments.iter().rev()`, which on the LinkedList (front = innermost)
walks from the global end, so the outermost binding wins and the program
prints `global` twice. -/
theorem c2_block_shadowing_broken :
    outputOf (interpret 60 initState shadowProg) = some ["global", "global"] :=
  rfl

/-- C3: the claim says the then branch runs exactly when the condition is
truthy (any non-nil, non-false value, e.g. the number 1). Interpreter::execute_if
instead compares the condition value against the literal `Boolean(true)`, so
`if (1) print "then"; else print "else";` runs the ELSE branch. -/
theorem c3_if_requires_literal_true :
    outputOf (interpret 30 initState ifOneProg) = some ["else"] :=
  rfl

/-- C4: the claim says a comma expression evaluates left to right and yields
the LAST value. Interpreter::eval_comma_expression iterates
`expressions.iter().rev()`, so the sub-expressions run right to left and the
loop's final `last_result` is the FIRST sub-expression's value: `(1, 2)`
evaluates to 1, not 2. -/
theorem c4_comma_yields_first_value :
    evaluate 20 initState (Expression.comma [.literalNumber 1, .literalNumber 2]) =
      some (initState, Except.ok (.literalNumber 1)) :=
  rfl

/-- C5: the claim says assigning to a name with no binding anywhere is a
runtime error, and otherwise the innermost frame holding the name is
written. Interpreter::assign_variable (a) falls through to `Ok` when no
frame has the name — the assignment `x = 1` in the pristine initial state
succeeds, changes nothing, and raises nothing — and (b) walks `.rev()`
(global end first), so with `x` declared in both the global frame (store
slot 0) and the current inner frame (store slot 1), `x = 5` writes the
OUTERMOST frame and leaves the inner one untouched. -/
theorem c5_assignment_silent_and_outermost :
    evaluate 20 initState (Expression.assignment 1 (identTok "x") (.literalNumber 1)) =
        some (initState, Except.ok (.literalNumber 1)) ∧
    (evaluate 20 twoFrameState (Expression.assignment 1 (identTok "x") (.literalNumber 5))).map
        (fun p => ((storeGet p.1 0).get "x", (storeGet p.1 1).get "x")) =
      some (some (.literalNumber 5), some (.literalNumber 0)) :=
  ⟨rfl, rfl⟩

/-- C6: the claim says a Block restores the previous environment chain on
every exit path including errors. In Interpreter::execute_block_statement
the `?` on the body statements returns before `pop_front`, so a failing
inner statement leaves the freshly pushed child frame (store slot 1) on the
chain: afterwards the chain is `[1, 0]`, not the original `[0]`. -/
theorem c6_block_env_not_restored_on_error :
    isErrored (execute 20 initState failingBlock) = true ∧
    (execute 20 initState failingBlock).map (fun p => p.1.environments) = some [1, 0] :=
  ⟨rfl, rfl⟩

/-- C8: the claim says the unary rule accepts `!` or `-` followed by another
UNARY expression, so `!!x` parses. Parser::unary parses the operand with
`self.call()` instead of `self.unary()`, so the second `!` reaches
Parser::primary, matches none of its token kinds, and the parse of `!!true;`
fails with the "Expected expression" error. -/
theorem c8_double_bang_fails_to_parse :
    Parser.unary 30 doubleBangTokens =
      some (.error (LoxError.withLine "Expected expression" 0)) :=
  rfl

/-- C9: logical operators short-circuit and pass operand values through
unchanged. When the left operand of `a or b` evaluates to a truthy value
(or that of `a and b` to a non-truthy value), the whole expression yields
that very value in that very state, independent of `b`; otherwise it is
exactly the evaluation of `b` from the left operand's final state. -/
theorem c9_logical_short_circuit (f : Nat) (st st1 : InterpState) (l r : Expression)
    (op : LogicalOperator) (v : Expression)
    (h : evaluate f st l = some (st1, Except.ok v)) :
    (((op = .or ∧ isTruthy v = true) ∨ (op = .and ∧ isTruthy v = false)) →
      evaluate (f + 1) st (.logical l op r) = some (st1, Except.ok v)) ∧
    (((op = .or ∧ isTruthy v = false) ∨ (op = .and ∧ isTruthy v = true)) →
      evaluate (f + 1) st (.logical l op r) = evaluate f st1 r) := by
  constructor <;> rintro (⟨hop, hv⟩ | ⟨hop, hv⟩) <;> subst hop <;>
    simp [evaluate, runBind, h, hv]

/-- Witness for C9 at `true or 1`: the left value `true` is truthy, so the
whole expression is `true` in the unchanged initial state. -/
theorem c9_logical_short_circuit_witness :
    (((LogicalOperator.or = LogicalOperator.or ∧
        isTruthy (Expression.literalBoolean true) = true) ∨
      (LogicalOperator.or = LogicalOperator.and ∧
        isTruthy (Expression.literalBoolean true) = false)) →
      evaluate (1 + 1) initState
          (Expression.logical (.literalBoolean true) .or (.literalNumber 1)) =
        some (initState, Except.ok (.literalBoolean true))) ∧
    (((LogicalOperator.or = LogicalOperator.or ∧
        isTruthy (Expression.literalBoolean true) = false) ∨
      (LogicalOperator.or = LogicalOperator.and ∧
        isTruthy (Expression.literalBoolean true) = true)) →
      evaluate (1 + 1) initState
          (Expression.logical (.literalBoolean true) .or (.literalNumber 1)) =
        evaluate 1 initState (.literalNumber 1)) :=
  c9_logical_short_circuit 1 initState initState (.literalBoolean true) (.literalNumber 1)
    .or (.literalBoolean true) rfl

/-- C10: the claim says every pull returns a token or a scan error and never
panics. Scanner::create_number_token accumulates digits and any number of
dots and then calls `lexeme.parse::<f64>().unwrap()`; on the input `1.2.3`
the lexeme has two dots, the parse fails, and the unwrap panics. -/
theorem c10_scanner_panics_on_number_with_two_dots :
    Scanner.nextToken ['1', '.', '2', '.', '3'] 1 = Scanner.ScanStep.panicked :=
  rfl

end LoxRust
